import Mathlib

/-!
Verification of the natural-language specification of `arcinston/dkv`
against its source (`src/cmd/globaldb.go`, package `main`).

The program is an interactive CLI that joins a replicated key-value
store built on the `go-ds-crdt` library.  The command loop (lines
260-338 of `globaldb.go`), the option setup (lines 186-197), the
bootstrap phase (lines 204-217), the context tree (lines 66, 180) and
the listen-port computation (lines 57-59) are embedded below directly
from the source.  The CRDT merge core itself lives in the external
`go-ds-crdt` dependency and is not part of this repository's sources;
where a claim is decided by that core, the model is built from the
specification's own description and is marked as such in its doc
comment.
-/

namespace Dkv

/-- Helper for `goFields`: scan the characters, accumulating the
current word (reversed) and emitting it whenever whitespace or the end
of the line is reached. -/
def fieldsAux : List Char → List Char → List String
  | [], acc => if acc.isEmpty then [] else [String.mk acc.reverse]
  | c :: cs, acc =>
    if c.isWhitespace then
      (if acc.isEmpty then [] else [String.mk acc.reverse]) ++ fieldsAux cs []
    else
      fieldsAux cs (c :: acc)

/-- Go `strings.Fields`: split the line around runs of whitespace and
drop the empty pieces (src line 264: `fields := strings.Fields(text)`). -/
def goFields (s : String) : List String :=
  fieldsAux s.toList []

/-- The materialized key-value store visible to the CLI, as an
association list (newest binding first).  It stands for the
`crdt`-backed datastore the command loop reads and writes. -/
abbrev Store := List (String × String)

/-- A successful `crdt.Put` stores the value under the key, replacing
any previous binding. -/
def storePut (k v : String) (st : Store) : Store :=
  (k, v) :: st.filter (fun p => p.1 != k)

/-- `crdt.Get`: look the key up in the materialized store. -/
def storeGet (k : String) (st : Store) : Option String :=
  (st.find? (fun p => p.1 == k)).map Prod.snd

/-- Observable effects of one iteration of the command loop.  `putCall`
and `getCall` are the calls into the crdt datastore; `queryCall` is
`crdt.Query`; `prompt` is any of the `"> "` prints. -/
inductive Effect where
  | putCall (k v : String)
  | getCall (k : String)
  | queryCall
  | printLine (s : String)
  | printPeers
  | setLogLevel (sys lvl : String)
  | prompt
deriving DecidableEq, Repr

/-- Control outcome of one loop iteration: go round again, `return`
from `main`, or a runtime panic. -/
inductive Control where
  | next
  | exited
  | panicked
deriving DecidableEq, Repr

/-- Result of dispatching one input line. -/
structure StepResult where
  store : Store
  effects : List Effect
  control : Control
deriving DecidableEq, Repr

/-- Is the effect a write into the crdt store? -/
def isPutCall : Effect → Bool
  | .putCall _ _ => true
  | _ => false

/-- The `switch cmd` dispatch of the command loop (src lines 262-338),
over the already-split fields of one input line.  `putErr` is the
outcome of the underlying `crdt.Put` call (`none` = success, `some msg`
= the error it returned); `crdt.Put` in the source returns only an
`error`, never an identifier.  Faithful points: the `debug` case prints
its usage when fewer than two fields are present but then still
evaluates `fields[1]` (no `continue` in the source), which panics on a
one-field line; an unrecognized command falls through the `switch` and
only reprints the prompt. -/
def dispatch (putErr : Option String) (st : Store) (fs : List String) : StepResult :=
  match fs with
  | [] => ⟨st, [.prompt], .next⟩
  | cmd :: rest =>
    match cmd with
    | "exit" => ⟨st, [], .exited⟩
    | "quit" => ⟨st, [], .exited⟩
    | "debug" =>
      let usage := if fs.length < 2 then [Effect.printLine "debug <on/off/peers>"] else []
      match rest.head? with
      | none => ⟨st, usage, .panicked⟩
      | some stArg =>
        let eff :=
          match stArg with
          | "on" => [Effect.setLogLevel "globaldb" "debug"]
          | "off" => [Effect.setLogLevel "globaldb" "error"]
          | "peers" => [Effect.printPeers]
          | _ => []
        ⟨st, usage ++ eff ++ [.prompt], .next⟩
    | "list" =>
      ⟨st, Effect.queryCall ::
            st.map (fun p => Effect.printLine ("[" ++ p.1 ++ "] -> " ++ p.2)) ++
            [.prompt], .next⟩
    | "get" =>
      match rest.head? with
      | none => ⟨st, [.printLine "get <key>", .prompt], .next⟩
      | some k =>
        match storeGet k st with
        | none => ⟨st, [.getCall k, .printLine "error: key not found", .prompt], .next⟩
        | some v => ⟨st, [.getCall k, .printLine ("[" ++ k ++ "] -> " ++ v), .prompt], .next⟩
    | "put" =>
      match rest with
      | k :: w :: ws =>
        let v := String.intercalate " " (w :: ws)
        match putErr with
        | some msg => ⟨st, [.putCall k v, .printLine ("error: " ++ msg), .prompt], .next⟩
        | none => ⟨storePut k v st, [.putCall k v, .prompt], .next⟩
      | _ => ⟨st, [.printLine "put <key> <value>", .prompt], .next⟩
    | _ => ⟨st, [.prompt], .next⟩

/-- One iteration of the command loop on a raw input line: split into
fields, then dispatch. -/
def step (putErr : Option String) (st : Store) (line : String) : StepResult :=
  dispatch putErr st (goFields line)

/-! ### Option setup (src lines 186-197) -/

/-- One second in nanoseconds, the unit of Go's `time.Duration`
(`5 * time.Second` = `5_000_000_000`). -/
def timeSecondNs : Nat := 1000000000

/-- The subset of `crdt.Options` the program touches. -/
structure CrdtOptions where
  rebroadcastIntervalNs : Nat
  hasLogger : Bool
  hasPutHook : Bool
  hasDeleteHook : Bool
deriving DecidableEq, Repr

/-- The option record handed to `crdt.New` (src lines 186-197): start
from `crdt.DefaultOptions()` (whatever its defaults are), then set the
logger, the rebroadcast interval to `5 * time.Second`, and the two
hooks.  `opts` is never assigned to again after line 197, where it is
passed to `crdt.New`. -/
def mkMainOptions (dflt : CrdtOptions) : CrdtOptions :=
  { dflt with
    hasLogger := true
    rebroadcastIntervalNs := 5 * timeSecondNs
    hasPutHook := true
    hasDeleteHook := true }

/-! ### Bootstrap phase (src lines 204-217) -/

/-- A libp2p `peer.AddrInfo`: a peer identifier plus its addresses. -/
structure AddrInfo where
  id : String
  addrs : List String
deriving DecidableEq, Repr

/-- Observable effects of the bootstrap phase. -/
inductive BootEffect where
  | promptForAddr
  | readAddrLine
  | bootstrapCall (peers : List AddrInfo)
  | tagPeer (id : String)
  | panicked
deriving DecidableEq, Repr

/-- Is the effect a call to `ipfs.Bootstrap`? -/
def isBootstrapCall : BootEffect → Bool
  | .bootstrapCall _ => true
  | _ => false

/-- Is the effect the `fmt.Scanln` reading a bootstrap address? -/
def isReadAddr : BootEffect → Bool
  | .readAddrLine => true
  | _ => false

/-- The bootstrap phase (src lines 204-217).  `answer` is the line read
at startup for "Is this a bootstrap node? (y/n)"; the source treats
exactly `"y"` as yes (line 51).  When the node is not a bootstrap node
it prompts for one address, reads it, and calls `ipfs.Bootstrap` once
with the parsed `AddrInfo` appended to `ipfslite.DefaultBootstrapPeers()`.
`parsed` is the result of `peer.AddrInfoFromP2pAddr` on the entered
address; the source ignores its error, so an unparsable address ends in
a nil-pointer panic at `*inf` before `Bootstrap` runs. -/
def bootstrapPhase (defaults : List AddrInfo) (answer : String)
    (parsed : Option AddrInfo) : List BootEffect :=
  if answer == "y" then
    []
  else
    match parsed with
    | some inf =>
        [.promptForAddr, .readAddrLine,
         .bootstrapCall (defaults ++ [inf]), .tagPeer inf.id]
    | none => [.promptForAddr, .readAddrLine, .panicked]

/-! ### Context tree (src lines 66, 152, 163, 180-181) -/

/-- The contexts the program creates: `context.Background()`, the root
`ctx, cancel := context.WithCancel(context.Background())` of line 66,
and `psubCtx, psubCancel := context.WithCancel(ctx)` of line 180. -/
inductive CtxId where
  | background
  | rootCtx
  | psubCtx
deriving DecidableEq, Repr

/-- Parent of each context in the `context.WithCancel` derivation tree,
read off lines 66 and 180 of the source. -/
def ctxParent : CtxId → Option CtxId
  | .background => none
  | .rootCtx => some .background
  | .psubCtx => some .rootCtx

/-- The chain of a context and its ancestors (fuel-bounded walk up
`ctxParent`; depth of the program's tree is at most 3). -/
def ctxChainAux : Nat → Option CtxId → List CtxId
  | 0, _ => []
  | _, none => []
  | n + 1, some c => c :: ctxChainAux n (ctxParent c)

/-- A context together with every context it was derived from. -/
def ctxChain (c : CtxId) : List CtxId := ctxChainAux 3 (some c)

/-- Which `cancel` functions have been invoked. -/
structure CancelFlags where
  rootCancelFired : Bool
  psubCancelFired : Bool
deriving DecidableEq, Repr

/-- Did this context's own cancel function fire?  (`context.Background()`
has none.) -/
def cancelFired (f : CancelFlags) : CtxId → Bool
  | .background => false
  | .rootCtx => f.rootCancelFired
  | .psubCtx => f.psubCancelFired

/-- Go context semantics: a context's `Done` channel is closed exactly
when its own cancel or any ancestor's cancel has fired. -/
def ctxDone (f : CancelFlags) (c : CtxId) : Bool :=
  (ctxChain c).any fun a => cancelFired f a

/-- The context passed to `crdt.NewPubSubBroadcaster` (src line 181). -/
def broadcasterCtx : CtxId := .psubCtx

/-- The context the periodic publish goroutine selects on
(src lines 163-173: `case <-ctx.Done(): return`). -/
def publishLoopCtx : CtxId := .rootCtx

/-- The context the connection-tagging goroutine blocks on
(src lines 152-161: `netSubs.Next(ctx)`). -/
def netTagLoopCtx : CtxId := .rootCtx

/-- One turn of the periodic publish goroutine's `select` (src lines
165-171): if the context is done it returns, otherwise it publishes and
sleeps 20 seconds. -/
inductive LoopTurn where
  | stopped
  | publishThenSleep
deriving DecidableEq, Repr

/-- Body of the periodic publish goroutine for one iteration, as a
function of whether its context is done. -/
def publishLoopBody (done : Bool) : LoopTurn :=
  if done then .stopped else .publishThenSleep

/-! ### Listen address (src lines 57-59) -/

/-- Go `rand.Intn(n)` returns a pseudorandom integer in `[0, n)`;
modelled as an arbitrary seed reduced into that range. -/
def randIntn (n seed : Nat) : Nat := seed % n

/-- `port := 4000 + rand.Intn(1000)` (src line 57). -/
def listenPort (seed : Nat) : Nat := 4000 + randIntn 1000 seed

/-- The listen multiaddr string of src line 59:
`"/ip4/127.0.0.1/tcp/" + strconv.Itoa(port)`. -/
def listenAddrStr (seed : Nat) : String :=
  "/ip4/127.0.0.1/tcp/" ++ toString (listenPort seed)

/-! ### Replication core

The merge engine the program relies on lives in the external
`go-ds-crdt` dependency and is not among this repository's sources, so
the definitions in this section are built from the specification's own
description of the data model and merge algorithm (spec sections 3 and
4.1). -/

/-- Modelled from the spec: one `(key, value, priority)` addition
carried by a delta, tagged with the content identifier of the delta
that introduced it (needed for the removal anchors and the identifier
tie-break). -/
structure Addition where
  key : String
  value : String
  prio : Nat
  srcDelta : String
deriving DecidableEq, Repr

/-- Modelled from the spec: a Delta is an immutable unit of change — a
set of `(key, value, priority)` additions and a set of
`(key, anchor identifier)` removals — identified by a content hash. -/
structure Delta where
  id : String
  adds : List (String × String × Nat)
  rems : List (String × String)
deriving DecidableEq, Repr

/-- Modelled from the spec: the replica's accumulated knowledge — the
set of additions observed and the set of removal anchors observed.  The
materialized per-key view is derived from it (recomputability
invariant, spec section 4.1). -/
@[ext]
structure RepState where
  adds : Finset Addition
  tombs : Finset (String × String)
deriving DecidableEq

/-- The additions of a delta, tagged with the delta's identifier. -/
def deltaAdds (d : Delta) : Finset Addition :=
  (d.adds.map fun kvp => ⟨kvp.1, kvp.2.1, kvp.2.2, d.id⟩).toFinset

/-- The removal anchors of a delta: `(key, superseded delta id)` pairs. -/
def deltaRems (d : Delta) : Finset (String × String) :=
  d.rems.toFinset

/-- Modelled from the spec: applying a delta merges its additions and
removal anchors into the replica's knowledge; merge application is
monotone and never reduces information (spec section 4.1). -/
def applyDelta (s : RepState) (d : Delta) : RepState :=
  ⟨s.adds ∪ deltaAdds d, s.tombs ∪ deltaRems d⟩

/-- The empty replica state. -/
def initState : RepState := ⟨∅, ∅⟩

/-- Apply a list of received deltas in arrival order. -/
def applyAll (s : RepState) (l : List Delta) : RepState :=
  l.foldl applyDelta s

/-- An addition for key `k` that has not been superseded by a removal
anchoring the delta that introduced it. -/
def aliveFor (s : RepState) (k : String) : Finset Addition :=
  s.adds.filter fun a => a.key = k ∧ (k, a.srcDelta) ∉ s.tombs

/-- Modelled from the spec: the materialized view of one key — the
surviving addition holding the maximum `(priority, delta identifier)`
pair, ties broken lexicographically by identifier bytes (spec section
3, Materialized State); `⊥` when no addition survives. -/
def materialize (s : RepState) (k : String) :
    WithBot (Lex (Nat × Lex (String × String))) :=
  ((aliveFor s k).image fun a => toLex (a.prio, toLex (a.srcDelta, a.value))).max

/-- Modelled from the spec: a key is tombstoned when it has additions
but every one of them has been superseded by a removal. -/
def tombstoned (s : RepState) (k : String) : Prop :=
  (s.adds.filter fun a => a.key = k) ≠ ∅ ∧ aliveFor s k = ∅

/-! ### Helper lemmas -/

/-- Looking up a key right after storing it returns the stored value. -/
theorem storeGet_storePut (k v : String) (st : Store) :
    storeGet k (storePut k v st) = some v := by
  simp [storeGet, storePut, List.find?]

/-- An addition is known after applying a list of deltas iff it was
known before or some delta in the list carries it. -/
theorem mem_applyAll_adds (l : List Delta) (s : RepState) (a : Addition) :
    a ∈ (applyAll s l).adds ↔ a ∈ s.adds ∨ ∃ d ∈ l, a ∈ deltaAdds d := by
  induction l generalizing s with
  | nil => simp [applyAll]
  | cons d t ih =>
      show a ∈ (applyAll (applyDelta s d) t).adds ↔ _
      rw [ih]
      simp [applyDelta, or_assoc]

/-- A removal anchor is known after applying a list of deltas iff it
was known before or some delta in the list carries it. -/
theorem mem_applyAll_tombs (l : List Delta) (s : RepState) (r : String × String) :
    r ∈ (applyAll s l).tombs ↔ r ∈ s.tombs ∨ ∃ d ∈ l, r ∈ deltaRems d := by
  induction l generalizing s with
  | nil => simp [applyAll]
  | cons d t ih =>
      show r ∈ (applyAll (applyDelta s d) t).tombs ↔ _
      rw [ih]
      simp [applyDelta, or_assoc]

/-- The replica state reached from scratch depends only on the set of
deltas received, not on their arrival order or multiplicity. -/
theorem applyAll_eq_of_toFinset_eq (l₁ l₂ : List Delta)
    (h : l₁.toFinset = l₂.toFinset) :
    applyAll initState l₁ = applyAll initState l₂ := by
  have hm : ∀ d : Delta, d ∈ l₁ ↔ d ∈ l₂ := fun d => by
    rw [← List.mem_toFinset, h, List.mem_toFinset]
  ext x
  · rw [mem_applyAll_adds, mem_applyAll_adds]
    simp only [hm]
  · rw [mem_applyAll_tombs, mem_applyAll_tombs]
    simp only [hm]

/-! ### Claim theorems -/

/-- C1 counterexample: the command loop does not expose Delete.  A
`delete k` line matches no `case` of the dispatch `switch`: the store
is untouched and the only effect is reprinting the prompt, so the
claimed client operation `Delete(key)` does not exist at this layer. -/
theorem delete_not_a_client_operation :
    (step none [("k", "v")] "delete k").store = [("k", "v")] ∧
    (step none [("k", "v")] "delete k").effects = [Effect.prompt] :=
  ⟨rfl, rfl⟩

/-- C1 (amended): the write path exposes only Put.  A `put` line makes
exactly one `crdt.Put` call whose outcome is just success or an error
(no delta identifier reaches the caller), while a `delete` line is not
dispatched at all: it leaves the store unchanged and only reprints the
prompt. -/
theorem put_exposed_delete_not (e : Option String) (st : Store) (k w : String)
    (ws rest : List String) :
    ((dispatch e st ("put" :: k :: w :: ws)).effects.filter isPutCall
        = [Effect.putCall k (String.intercalate " " (w :: ws))]) ∧
    (dispatch e st ("delete" :: rest)).store = st ∧
    (dispatch e st ("delete" :: rest)).effects = [Effect.prompt] := by
  refine ⟨?_, rfl, rfl⟩
  cases e <;> simp [dispatch, isPutCall]

/-- C2: convergence.  Two replicas that received the same set of deltas
— in any order, with any duplication — materialize the identical view
for every key.  (Merge core modelled from the spec; see section above.) -/
theorem convergence_same_delta_set (l₁ l₂ : List Delta)
    (h : l₁.toFinset = l₂.toFinset) (k : String) :
    materialize (applyAll initState l₁) k = materialize (applyAll initState l₂) k := by
  rw [applyAll_eq_of_toFinset_eq l₁ l₂ h]

/-- Witness for C2: two concurrent single-key deltas applied in the two
opposite orders materialize the same view for the key. -/
theorem convergence_same_delta_set_witness :
    ([⟨"idA", [("k", "v1", 1)], []⟩, ⟨"idB", [("k", "v2", 1)], []⟩] : List Delta).toFinset
      = ([⟨"idB", [("k", "v2", 1)], []⟩, ⟨"idA", [("k", "v1", 1)], []⟩] : List Delta).toFinset
    ∧ materialize (applyAll initState
        [⟨"idA", [("k", "v1", 1)], []⟩, ⟨"idB", [("k", "v2", 1)], []⟩]) "k"
      = materialize (applyAll initState
        [⟨"idB", [("k", "v2", 1)], []⟩, ⟨"idA", [("k", "v1", 1)], []⟩]) "k" :=
  ⟨by decide,
   convergence_same_delta_set
     [⟨"idA", [("k", "v1", 1)], []⟩, ⟨"idB", [("k", "v2", 1)], []⟩]
     [⟨"idB", [("k", "v2", 1)], []⟩, ⟨"idA", [("k", "v1", 1)], []⟩]
     (by decide) "k"⟩

/-- C3: the one-field line `debug` panics.  The source prints the usage
when fewer than two fields are present but then still evaluates
`st := fields[1]` (there is no `continue`), indexing past the end of
the fields slice, so the loop does not reach the next prompt. -/
theorem debug_line_panics :
    step none [] "debug" =
      ⟨[], [Effect.printLine "debug <on/off/peers>"], Control.panicked⟩ :=
  rfl

/-- C4: `get` and `list` are pure reads of the materialized store: the
store is unchanged and no effect of the iteration is a write into the
crdt datastore. -/
theorem read_path_no_write (e : Option String) (st : Store) (fs : List String)
    (h : fs.head? = some "get" ∨ fs.head? = some "list") :
    (dispatch e st fs).store = st ∧
    ∀ eff ∈ (dispatch e st fs).effects, isPutCall eff = false := by
  match fs with
  | [] => simp at h
  | cmd :: rest =>
    simp only [List.head?_cons, Option.some.injEq] at h
    rcases h with h | h
    · subst h
      cases rest with
      | nil =>
          refine ⟨rfl, ?_⟩
          show ∀ eff ∈ [Effect.printLine "get <key>", Effect.prompt],
            isPutCall eff = false
          decide
      | cons k rest =>
          cases hg : storeGet k st with
          | none =>
              refine ⟨?_, ?_⟩ <;> simp [dispatch, hg, isPutCall]
          | some v =>
              refine ⟨?_, ?_⟩ <;> simp [dispatch, hg, isPutCall]
    · subst h
      refine ⟨rfl, ?_⟩
      intro eff he
      simp only [dispatch, List.mem_cons, List.mem_append, List.mem_map,
        List.mem_singleton] at he
      rcases he with (rfl | ⟨p, hp, rfl⟩) | (rfl | hnil)
      · rfl
      · rfl
      · rfl
      · cases hnil

/-- Witness for C4: a concrete `list` iteration over a one-entry store. -/
theorem read_path_no_write_witness :
    (dispatch none [("a", "1")] ["list"]).store = [("a", "1")] ∧
    ∀ eff ∈ (dispatch none [("a", "1")] ["list"]).effects, isPutCall eff = false :=
  read_path_no_write none [("a", "1")] ["list"] (Or.inr rfl)

/-- C5: a failed `crdt.Put` is surfaced synchronously: the iteration
makes exactly one put call, prints `error: <msg>` via `printErr`,
leaves the store unchanged, reprints the prompt and continues — no
retry at this layer. -/
theorem put_error_synchronous (st : Store) (k w msg : String) (ws : List String) :
    dispatch (some msg) st ("put" :: k :: w :: ws) =
      ⟨st, [Effect.putCall k (String.intercalate " " (w :: ws)),
            Effect.printLine ("error: " ++ msg), Effect.prompt], Control.next⟩ :=
  rfl

/-- C6: the rebroadcast interval handed to `crdt.New` is the constant
`5 * time.Second`, whatever the library defaults were; `opts` is built
once at startup (src lines 186-197) and never reassigned. -/
theorem rebroadcast_interval_constant (dflt : CrdtOptions) :
    (mkMainOptions dflt).rebroadcastIntervalNs = 5 * timeSecondNs :=
  rfl

/-- C7: bootstrap is one-shot.  Answering `"y"` produces no bootstrap
effects at all; any other answer reads exactly one address and calls
`ipfs.Bootstrap` exactly once, with the parsed peer appended to the
default bootstrap peers. -/
theorem bootstrap_one_shot (defaults : List AddrInfo) (answer : String)
    (parsed : Option AddrInfo) (inf : AddrInfo) :
    (answer = "y" → bootstrapPhase defaults answer parsed = []) ∧
    (answer ≠ "y" → parsed = some inf →
      ((bootstrapPhase defaults answer parsed).filter isReadAddr).length = 1 ∧
      (bootstrapPhase defaults answer parsed).filter isBootstrapCall
        = [BootEffect.bootstrapCall (defaults ++ [inf])]) := by
  constructor
  · intro h
    subst h
    rfl
  · intro h1 h2
    subst h2
    have hb : (answer == "y") = false := by simp [h1]
    simp [bootstrapPhase, hb, isReadAddr, isBootstrapCall]

/-- Witness for C7: concrete runs of both branches. -/
theorem bootstrap_one_shot_witness :
    bootstrapPhase [] "y" none = [] ∧
    ("n" : String) ≠ "y" ∧
    (bootstrapPhase [] "n" (some ⟨"pid", ["addr"]⟩)).filter isBootstrapCall
      = [BootEffect.bootstrapCall [⟨"pid", ["addr"]⟩]] :=
  ⟨(bootstrap_one_shot [] "y" none ⟨"", []⟩).1 rfl,
   by decide,
   ((bootstrap_one_shot [] "n" (some ⟨"pid", ["addr"]⟩) ⟨"pid", ["addr"]⟩).2
      (by decide) rfl).2⟩

/-- C8: single cancellation scope.  The broadcaster's context and the
contexts both periodic goroutines watch are all derived from the root
context of line 66, so firing the root cancel marks every one of them
done and the periodic publish loop's next `select` takes the
`ctx.Done()` branch and stops. -/
theorem single_cancellation_scope (f : CancelFlags) (h : f.rootCancelFired = true) :
    CtxId.rootCtx ∈ ctxChain broadcasterCtx ∧
    CtxId.rootCtx ∈ ctxChain publishLoopCtx ∧
    CtxId.rootCtx ∈ ctxChain netTagLoopCtx ∧
    ctxDone f broadcasterCtx = true ∧
    ctxDone f publishLoopCtx = true ∧
    ctxDone f netTagLoopCtx = true ∧
    publishLoopBody (ctxDone f publishLoopCtx) = LoopTurn.stopped := by
  obtain ⟨r, p⟩ := f
  simp only at h
  subst h
  refine ⟨by decide, by decide, by decide, ?_, ?_, ?_, ?_⟩ <;> cases p <;> rfl

/-- Witness for C8: firing the root cancel alone cancels the
broadcaster's context and stops the publish loop. -/
theorem single_cancellation_scope_witness :
    (⟨true, false⟩ : CancelFlags).rootCancelFired = true ∧
    ctxDone ⟨true, false⟩ broadcasterCtx = true ∧
    publishLoopBody (ctxDone ⟨true, false⟩ publishLoopCtx) = LoopTurn.stopped :=
  ⟨rfl,
   (single_cancellation_scope ⟨true, false⟩ rfl).2.2.2.1,
   (single_cancellation_scope ⟨true, false⟩ rfl).2.2.2.2.2.2⟩

/-- C9: for a `put k w1 ... wn` line with at least one value word, the
value stored under `k` is the words joined by single spaces — a
multi-word value is stored as one value (src line 330:
`strings.Join(fields[2:], " ")`). -/
theorem put_value_words_joined (st : Store) (line k w : String) (ws : List String)
    (h : goFields line = "put" :: k :: w :: ws) :
    storeGet k (step none st line).store = some (String.intercalate " " (w :: ws)) := by
  unfold step
  rw [h]
  exact storeGet_storePut k (String.intercalate " " (w :: ws)) st

/-- Witness for C9: `put k a  b` (note the double space collapses)
stores `"a b"` under `k`. -/
theorem put_value_words_joined_witness :
    goFields "put k a  b" = ["put", "k", "a", "b"] ∧
    storeGet "k" (step none [] "put k a  b").store = some "a b" :=
  ⟨by decide, put_value_words_joined [] "put k a  b" "k" "a" ["b"] (by decide)⟩

/-- C10: the TCP port of the listen multiaddr is `4000 + rand.Intn(1000)`
and hence always lies in `[4000, 4999]`. -/
theorem listen_port_range (seed : Nat) :
    4000 ≤ listenPort seed ∧ listenPort seed ≤ 4999 := by
  unfold listenPort randIntn
  have h : seed % 1000 < 1000 := Nat.mod_lt _ (by norm_num)
  omega

end Dkv
